import Mathlib

/-!
Verification of the libsettings settings client against its source.

Shallow embedding of the C sources of swift-nav/libsettings.  Buffers and C
strings are modelled as `List Nat` of byte values (a C string is its NUL-free
byte content), machine integers as `Int`/`Nat` with explicit wrapping where the
code truncates, and fallible functions return `Option` or a success flag
alongside the new buffer contents, mirroring the in-place writes of the C code.
-/

namespace Libsettings

/-! ## Write result codes (include/libsettings/settings.h, settings_write_res_e) -/

def SETTINGS_WR_OK : Int := 0
def SETTINGS_WR_VALUE_REJECTED : Int := 1
def SETTINGS_WR_SETTING_REJECTED : Int := 2
def SETTINGS_WR_PARSE_FAILED : Int := 3
def SETTINGS_WR_READ_ONLY : Int := 4
def SETTINGS_WR_MODIFY_DISABLED : Int := 5
def SETTINGS_WR_SERVICE_FAILED : Int := 6
def SETTINGS_WR_TIMEOUT : Int := 7

/-! ## Setting entry and value update (src/setting_data.c) -/

/-- One setting entry, as in `setting_data_t` (internal/setting_data.h).
`var` is the caller-owned storage contents (`var_len` bytes, the list length),
`var_copy` the shadow buffer of the same length.  The codec's `from_string`
receives the current storage contents and the value text and returns the
success flag together with the new storage contents (the C function writes the
blob in place and may scribble on it even when it fails).  `notify` is `none`
for a NULL hook, `some r` for a hook that returns result code `r`. -/
structure SettingData where
  readonly : Bool
  watchonly : Bool
  var : List Nat
  var_copy : List Nat
  from_string : List Nat → List Nat → Bool × List Nat
  notify : Option Int

/-- Outcome of `setting_data_update_value`: returned code, final contents of the
caller's storage `var` and of the shadow buffer `var_copy`, and whether the
notify hook was invoked. -/
structure UpdateResult where
  res : Int
  var : List Nat
  var_copy : List Nat
  notified : Bool
  deriving Repr, DecidableEq

/-- Embeds `setting_data_update_value` (src/setting_data.c:88-124):
readonly check, snapshot `var → var_copy`, `from_string` with revert on parse
failure, optional notify with the watchonly filter and revert on rejection. -/
def setting_data_update_value (sd : SettingData) (value : List Nat) : UpdateResult :=
  if sd.readonly then
    ⟨SETTINGS_WR_READ_ONLY, sd.var, sd.var_copy, false⟩
  else
    -- memcpy(var_copy, var, var_len)
    let copy := sd.var
    let fs := sd.from_string sd.var value
    if fs.1 = false then
      -- revert: memcpy(var, var_copy, var_len)
      ⟨SETTINGS_WR_PARSE_FAILED, copy, copy, false⟩
    else
      match sd.notify with
      | none => ⟨SETTINGS_WR_OK, fs.2, copy, false⟩
      | some res =>
        if sd.watchonly then
          ⟨SETTINGS_WR_OK, fs.2, copy, true⟩
        else if res ≠ SETTINGS_WR_OK then
          ⟨res, copy, copy, true⟩
        else
          ⟨SETTINGS_WR_OK, fs.2, copy, true⟩

/-! ## String codec (src/setting_type_str.c) -/

/-- Embeds `str_from_string` (src/setting_type_str.c:26-35).
`snprintf(blob, blen, "%s", str)` writes `min |str| (blen-1)` bytes of `str`
plus a terminating NUL when `blen ≥ 1` (nothing when `blen = 0`), leaves the
rest of the buffer untouched, and returns `|str|`; the codec fails iff
`|str| ≥ blen`. -/
def str_from_string (blen : Nat) (blob : List Nat) (str : List Nat) : Bool × List Nat :=
  if blen = 0 then
    (false, blob)
  else
    let w := min str.length (blen - 1)
    (decide (str.length < blen), str.take w ++ [0] ++ blob.drop (w + 1))

/-- A string-typed setting entry: the codec is `str_from_string` applied at the
storage width, as bound by `setting_data_update_value` which passes `var_len`
as `blen`. -/
def strSetting (watchonly : Bool) (blob copy : List Nat) (notify : Option Int) : SettingData :=
  ⟨false, watchonly, blob, copy, fun v t => str_from_string v.length v t, notify⟩

/-! ## Token codec (src/settings_util.c) -/

/-- Result of `settings_parse`: the returned token-count code
(`settings_tokens_t`, -1 = INVALID .. 5 = TYPE_CUSTOM) and the four output
pointers, modelled as start indices into the buffer (`none` = NULL). -/
structure ParseResult where
  code : Int
  sec : Option Nat
  name : Option Nat
  value : Option Nat
  type : Option Nat
  deriving Repr, DecidableEq

/-- The loop of `settings_parse` (src/settings_util.c:74-109).  `blen` is the
buffer length, `i` the current index, `tok` the NUL count so far, `n`/`v`/`t`
the name/value/type outputs.  The `tok = 3` case falls through to the `tok = 4`
and `tok = 5` position checks when the type output is NULL or the third NUL is
the final byte, exactly as the C `switch` does; more than five NULs, or a
misplaced fourth or fifth NUL, return INVALID (-1) with the outputs as written
so far. -/
def parseGo (blen : Nat) (nameReq valueReq typeReq : Bool) :
    List Nat → Nat → Nat → Option Nat → Option Nat → Option Nat →
    Int × Option Nat × Option Nat × Option Nat
  | [], _, tok, n, v, t => (Int.ofNat tok, n, v, t)
  | b :: rest, i, tok, n, v, t =>
    if b = 0 then
      let tk := tok + 1
      if tk = 1 then
        parseGo blen nameReq valueReq typeReq rest (i + 1) tk
          (if nameReq ∧ i + 1 < blen then some (i + 1) else n) v t
      else if tk = 2 then
        parseGo blen nameReq valueReq typeReq rest (i + 1) tk n
          (if valueReq ∧ i + 1 < blen then some (i + 1) else v) t
      else if tk = 3 then
        if typeReq ∧ i + 1 < blen then
          parseGo blen nameReq valueReq typeReq rest (i + 1) tk n v (some (i + 1))
        else if i = blen - 2 ∨ i = blen - 1 then
          parseGo blen nameReq valueReq typeReq rest (i + 1) tk n v t
        else (-1, n, v, t)
      else if tk = 4 then
        if i = blen - 2 ∨ i = blen - 1 then
          parseGo blen nameReq valueReq typeReq rest (i + 1) tk n v t
        else (-1, n, v, t)
      else if tk = 5 then
        if i = blen - 1 then
          parseGo blen nameReq valueReq typeReq rest (i + 1) tk n v t
        else (-1, n, v, t)
      else (-1, n, v, t)
    else
      parseGo blen nameReq valueReq typeReq rest (i + 1) tok n v t

/-- Embeds `settings_parse` (src/settings_util.c:50-112).  The four `Bool`
flags model whether the corresponding output pointer is non-NULL; outputs are
NULL-ed first, a zero-length buffer or a buffer not ending in NUL returns
INVALID, otherwise the section output is set to the buffer start and the NUL
counting loop runs. -/
def settings_parse (secReq nameReq valueReq typeReq : Bool) (buf : List Nat) : ParseResult :=
  if buf.length = 0 then ⟨-1, none, none, none, none⟩
  else if buf.getD (buf.length - 1) 0 ≠ 0 then ⟨-1, none, none, none, none⟩
  else
    let s := if secReq then some 0 else none
    let r := parseGo buf.length nameReq valueReq typeReq buf 0 0 none none none
    ⟨r.1, s, r.2.1, r.2.2.1, r.2.2.2⟩

/-- The non-NULL prefix of the four token arguments of `settings_format`
(the C loop stops at the first NULL argument). -/
def argTokens : List (Option (List Nat)) → List (List Nat)
  | Option.some x :: rest => x :: argTokens rest
  | _ => []

/-- The loop of `settings_format` (src/settings_util.c:30-44): each token is
written by `snprintf(&buf[n], blen - n, "%s", token)`, which fails (truncates)
iff the token length `l` satisfies `l ≥ blen - n`; on success `n` advances past
the token and its NUL.  Returns the byte count and written bytes, `none` for
the C return value -1. -/
def formatGo (blen : Nat) : List (List Nat) → Nat → List Nat → Option (Nat × List Nat)
  | [], n, acc => some (n, acc)
  | tk :: ts, n, acc =>
    if blen - n ≤ tk.length then none
    else formatGo blen ts (n + tk.length + 1) (acc ++ tk ++ [0])

/-- Embeds `settings_format` (src/settings_util.c:18-47): writes the non-NULL
prefix of section/name/value/type, each followed by a NUL. -/
def settings_format (sec name value type : Option (List Nat)) (blen : Nat) :
    Option (Nat × List Nat) :=
  formatGo blen (argTokens [sec, name, value, type]) 0 []

/-- Byte length of a formatted token list: every token plus its NUL. -/
def sumLen : List (List Nat) → Nat
  | [] => 0
  | t :: ts => t.length + 1 + sumLen ts

/-- The buffer `settings_format` emits for a token list. -/
def flattenTokens : List (List Nat) → List Nat
  | [] => []
  | t :: ts => t ++ [0] ++ flattenTokens ts

/-- The token starting at index `j` of a parsed buffer: bytes up to the next
NUL (the C outputs are pointers to NUL-terminated strings inside the buffer). -/
def tokenAt (buf : List Nat) (j : Nat) : List Nat := (buf.drop j).takeWhile (· ≠ 0)

/-- The tokens a `settings_parse` result denotes: the set output pointers, in
order up to the first unset one, each read as a NUL-terminated string. -/
def parsedTokens (buf : List Nat) (r : ParseResult) : List (List Nat) :=
  argTokens (([r.sec, r.name, r.value, r.type]).map (Option.map (tokenAt buf)))

/-! ## Request tracker (src/request_state.c) -/

/-- One in-flight request descriptor, as in `request_state_t`
(internal/request_state.h).  `compare_data` holds the `compare_data_len` match
bytes (its length); `matched` is the C field `match`. -/
structure RequestState where
  msg_id : Nat
  compare_data : List Nat
  matched : Bool
  pending : Bool
  deriving Repr, DecidableEq

/-- The match test of `request_state_lookup`: payload at least as long as the
compare data and `memcmp` of the prefix equal. -/
def requestMatches (data : List Nat) (st : RequestState) : Bool :=
  decide (st.compare_data.length ≤ data.length) &&
    decide (data.take st.compare_data.length = st.compare_data)

/-- Embeds `request_state_lookup` (src/request_state.c:182-198): first linked
request whose compare data is a byte-prefix of the payload. -/
def request_state_lookup (req_list : List RequestState) (data : List Nat) :
    Option RequestState :=
  req_list.find? (requestMatches data)

/-- Embeds `request_state_signal` (src/request_state.c:106-124): message-id
mismatch returns -1 leaving the state untouched; a match sets `match`, clears
`pending` and returns 0 (the host `signal` call has no effect on the state). -/
def request_state_signal (state : RequestState) (msg_id : Nat) : Int × RequestState :=
  if msg_id ≠ state.msg_id then (-1, state)
  else (0, { state with matched := true, pending := false })

/-! ## Settings list maintenance (src/settings.c) -/

/-- Identity of a setting entry: `(section, name)`, as compared by `strcmp` in
`setting_data_lookup` (src/settings.c:348-358). -/
structure SettingEntry where
  sect : String
  name : String
  deriving Repr, DecidableEq

/-- Embeds `setting_data_lookup` (src/settings.c:348-358). -/
def setting_data_lookup (l : List SettingEntry) (sect name : String) : Option SettingEntry :=
  l.find? (fun sd => decide (sd.sect = sect) && decide (sd.name = name))

/-- The walk of `setting_data_list_insert` (src/settings.c:909-925) on a
non-empty list: insert after the last element of the new entry's section if
one exists, else after the last element. -/
def insertGo (sd : SettingEntry) : List SettingEntry → List SettingEntry
  | [] => [sd]
  | [s] => [s, sd]
  | s :: s2 :: rest =>
    if s.sect = sd.sect ∧ s2.sect ≠ sd.sect then s :: sd :: s2 :: rest
    else s :: insertGo sd (s2 :: rest)

/-- Embeds `setting_data_list_insert` (src/settings.c:909-925). -/
def setting_data_list_insert (l : List SettingEntry) (sd : SettingEntry) : List SettingEntry :=
  match l with
  | [] => [sd]
  | _ => insertGo sd l

/-- Removal of the first occurrence from a list. -/
def removeFirst (target : SettingEntry) : List SettingEntry → List SettingEntry
  | [] => []
  | s :: rest => if s = target then rest else s :: removeFirst target rest

/-- Embeds `setting_data_list_remove` (src/settings.c:1247-1268): the loop
walks `s` over the list and unlinks `s->next` when it is the target, so the
head element is kept unconditionally and the target is removed only from the
tail of the list. -/
def setting_data_list_remove (l : List SettingEntry) (target : SettingEntry) :
    List SettingEntry :=
  match l with
  | [] => []
  | s :: rest => s :: removeFirst target rest

/-- Embeds `settings_add_setting` (src/settings.c:1288-1348).  The environment
outcomes are oracle parameters: `createOk` for `setting_create_setting`
(allocation/type lookup) and `registerOk` for the `setting_register`
req/reply; callback-registration failures only log in the source and do not
change the result, and the watchonly path returns 0 regardless of the initial
read's outcome.  Returns the C result and the new settings list. -/
def settings_add_setting (l : List SettingEntry) (sd : SettingEntry)
    (createOk watchonly registerOk : Bool) : Int × List SettingEntry :=
  if (setting_data_lookup l sd.sect sd.name).isSome then (-1, l)
  else if createOk = false then (-1, l)
  else
    let l1 := setting_data_list_insert l sd
    if watchonly then (0, l1)
    else if registerOk then (0, l1)
    else (-1, setting_data_list_remove l1 sd)

/-! ## Decimal scanning (C library `sscanf`/`strtol` decimal conversions) -/

/-- `isspace` bytes skipped by the scanf/strtol decimal conversions. -/
def isSpaceByte (b : Nat) : Bool :=
  b = 32 || b = 9 || b = 10 || b = 11 || b = 12 || b = 13

def isDigitByte (b : Nat) : Bool := 48 ≤ b && b ≤ 57

/-- Value of a digit run, most significant first. -/
def digitsVal (ds : List Nat) : Nat := ds.foldl (fun acc d => 10 * acc + (d - 48)) 0

/-- The decimal matching common to `sscanf("%d"-family)` and
`strtol(s, NULL, 10)`: skip whitespace, optional sign, then a digit run; the
mathematical value of the matched digits, or `none` when no digit matches. -/
def decScan (s : List Nat) : Option Int :=
  let s1 := s.dropWhile isSpaceByte
  let signed : Bool × List Nat :=
    match s1 with
    | 43 :: r => (false, r)
    | 45 :: r => (true, r)
    | r => (false, r)
  let ds := signed.2.takeWhile isDigitByte
  if ds.isEmpty then none
  else some (if signed.1 then -(digitsVal ds : Int) else (digitsVal ds : Int))

/-- `sscanf(str, "%hd", &tmp)` on its C-defined domain: the conversion matches
a decimal and stores it into a `short`.  A matched value outside the `short`
range makes the conversion undefined in C (7.21.6.2p10); such inputs are
modelled as a failed scan. -/
def sscanf_hd (s : List Nat) : Option Int :=
  match decScan s with
  | some v => if -32768 ≤ v ∧ v ≤ 32767 then some v else none
  | none => none

/-- `sscanf(str, "%" PRId32, ...)` on its C-defined domain, as `sscanf_hd` but
for a 32-bit target. -/
def sscanf_d32 (s : List Nat) : Option Int :=
  match decScan s with
  | some v => if -2147483648 ≤ v ∧ v ≤ 2147483647 then some v else none
  | none => none

/-- `strtol(s, NULL, 10)`: the matched decimal value saturated to the range of
`long` (LONG_MIN/LONG_MAX on overflow, 64-bit on the LP64 targets this library
builds for), 0 when nothing matches. -/
def strtol10 (s : List Nat) : Int :=
  match decScan s with
  | some v => max (-9223372036854775808) (min 9223372036854775807 v)
  | none => 0

/-- Conversion of an integer value to a C `int`: two's-complement narrowing to
32 bits, as on every supported target. -/
def wrap32 (v : Int) : Int := (v + 2147483648).emod 4294967296 - 2147483648

/-! ## Int codec (src/setting_type_int.c, duplicated in src/settings.c) -/

/-- Little-endian bytes of a natural number, fixed width. -/
def leBytes : Nat → Nat → List Nat
  | 0, _ => []
  | w + 1, n => n % 256 :: leBytes w (n / 256)

/-- The `w`-byte two's-complement store of an integer value (little-endian
byte order; the byte order does not matter for the properties below). -/
def encodeInt (w : Nat) (v : Int) : List Nat := leBytes w (v.emod (2 ^ (8 * w))).toNat

/-- Embeds `int_from_string` (src/setting_type_int.c:34-52 and the identical
static copy src/settings.c:1708-1726): widths 1 and 2 scan with `%hd` (the
width-1 case stores the scanned `short` into an `int8_t`, truncating it),
width 4 scans with `%" PRId32`, any other width fails. -/
def int_from_string (blen : Nat) (blob : List Nat) (str : List Nat) : Bool × List Nat :=
  if blen = 1 then
    match sscanf_hd str with
    | some v => (true, encodeInt 1 v ++ blob.drop 1)
    | none => (false, blob)
  else if blen = 2 then
    match sscanf_hd str with
    | some v => (true, encodeInt 2 v ++ blob.drop 2)
    | none => (false, blob)
  else if blen = 4 then
    match sscanf_d32 str with
    | some v => (true, encodeInt 4 v ++ blob.drop 4)
    | none => (false, blob)
  else (false, blob)

/-! ## Enum codec (src/setting_type_enum.c) -/

/-- Embeds `enum_from_string` (src/setting_type_enum.c:61-78): linear search
for an exact name match; on success the index is stored into the first byte of
the blob. -/
def enum_from_string (names : List (List Nat)) (blob : List Nat) (str : List Nat) :
    Bool × List Nat :=
  match names.findIdx? (· = str) with
  | some i => (true, i % 256 :: blob.drop 1)
  | none => (false, blob)

/-! ## Type registry and the decode tail of settings_read (src/settings.c) -/

/-- A registered type codec, as in `type_data_t`; only `from_string` matters
for the claims below.  Its arguments are the storage length, the current
storage contents, and the value text. -/
structure TypeData where
  from_string : Nat → List Nat → List Nat → Bool × List Nat

/-- Embeds `type_data_lookup` (src/settings.c:900-907): a linear walk of
`type` steps from the list head, so a non-positive id yields the head and an
id past the end yields NULL. -/
def type_data_lookup (l : List TypeData) (t : Int) : Option TypeData :=
  l.get? t.toNat

/-- The bytes of `"enum:"` (LIBSETTINGS_ENUM_TAG). -/
def enumTagBytes : List Nat := [101, 110, 117, 109, 58]

/-- `strncmp(resp_type, "enum:", 5) == 0`. -/
def startsWithEnumTag (rt : List Nat) : Bool := decide (rt.take 5 = enumTagBytes)

/-- `SETTINGS_TYPE_STRING` (include/libsettings/settings.h: int=0, float=1,
string=2, bool=3). -/
def SETTINGS_TYPE_STRING : Int := 2

/-- Embeds the decode tail of `settings_read` (src/settings.c:1544-1572),
entered after a successful read transaction with response strings
`resp_value`/`resp_type`: `parsed_type` starts as `SETTINGS_TYPE_STRING` and
is replaced by `strtol` of the type token — saturated to `long`, then narrowed
to the `int`-typed `settings_type_t` by the assignment at settings.c:1549 —
when that token is non-empty and does not start with `"enum:"`, or by the
caller's expected type when the token is empty; a mismatch with the expected
type, an unknown type id, or a failed `from_string` return -1, otherwise 0.
Returns the C result together with the caller storage contents. -/
def settings_read_decode (registry : List TypeData) (expected : Int) (value_len : Nat)
    (storage resp_value resp_type : List Nat) : Int × List Nat :=
  let parsed : Int :=
    if resp_type.length ≠ 0 then
      if startsWithEnumTag resp_type then SETTINGS_TYPE_STRING
      else wrap32 (strtol10 resp_type)
    else expected
  if expected ≠ parsed then (-1, storage)
  else
    match type_data_lookup registry parsed with
    | none => (-1, storage)
    | some td =>
      let fs := td.from_string value_len storage resp_value
      if fs.1 then (0, fs.2) else (-1, fs.2)

/-! ## Token-count codes (include/libsettings/settings_util.h, settings_tokens_e) -/

def SETTINGS_TOKENS_INVALID : Int := -1
def SETTINGS_TOKENS_EMPTY : Int := 0
def SETTINGS_TOKENS_TYPE_CUSTOM : Int := 5

/-! ## A concrete type registry, as built by settings_create (src/settings.c:1774-1795)
followed by one settings_register_enum with names {"A","B"} -/

def intTypeData : TypeData := ⟨int_from_string⟩

/-- Positional placeholder for the float codec (src/settings.c:1681-1690):
its `sscanf("%g")` parsing is floating point and out of scope here; no theorem
below depends on its behaviour, only on its position (id 1) in the registry. -/
def floatTypeData : TypeData := ⟨fun _ blob _ => (false, blob)⟩

def strTypeData : TypeData := ⟨str_from_string⟩

/-- The bool codec: a 2-entry enum `{"False","True"}` (src/settings.c:1792). -/
def boolTypeData : TypeData :=
  ⟨fun _ blob s => enum_from_string [[70, 97, 108, 115, 101], [84, 114, 117, 101]] blob s⟩

/-- A user enum with names `{"A","B"}`, registered after the builtins, id 4. -/
def enumABTypeData : TypeData := ⟨fun _ blob s => enum_from_string [[65], [66]] blob s⟩

def registryWithEnumAB : List TypeData :=
  [intTypeData, floatTypeData, strTypeData, boolTypeData, enumABTypeData]

end Libsettings

namespace Libsettings

/-! # Claims -/

/-- C1: for a non-readonly entry whose value text parses and whose notify hook
is non-null, `setting_data_update_value` on a non-watchonly entry whose hook
returns non-OK restores the caller's storage from the shadow copy and returns
the hook's code, while on a watchonly entry it returns OK regardless of the
hook's return value. -/
theorem update_value_notify_reject_reverts (sd : SettingData) (value : List Nat) (r : Int)
    (hro : sd.readonly = false) (hp : (sd.from_string sd.var value).1 = true)
    (hn : sd.notify = some r) :
    (sd.watchonly = false → r ≠ SETTINGS_WR_OK →
      (setting_data_update_value sd value).var = sd.var ∧
      (setting_data_update_value sd value).res = r) ∧
    (sd.watchonly = true → (setting_data_update_value sd value).res = SETTINGS_WR_OK) := by
  refine ⟨fun hw hr => ?_, fun hw => ?_⟩
  · simp [setting_data_update_value, hro, hp, hn, hw, if_neg hr]
  · simp [setting_data_update_value, hro, hp, hn, hw]

theorem update_value_notify_reject_reverts_witness :
    (setting_data_update_value ⟨false, false, [5], [5], fun _ _ => (true, [7]), some 1⟩
      [55]).var = [5] ∧
    (setting_data_update_value ⟨false, false, [5], [5], fun _ _ => (true, [7]), some 1⟩
      [55]).res = 1 :=
  (update_value_notify_reject_reverts
    ⟨false, false, [5], [5], fun _ _ => (true, [7]), some 1⟩ [55] 1 rfl rfl rfl).1 rfl
    (by decide)

/-- C2: for a non-readonly entry, a value text rejected by the codec's
`from_string` makes `setting_data_update_value` return PARSE_FAILED with the
caller's storage restored from the shadow copy and the notify hook not
invoked. -/
theorem update_value_parse_fail_reverts (sd : SettingData) (value : List Nat)
    (hro : sd.readonly = false) (hp : (sd.from_string sd.var value).1 = false) :
    setting_data_update_value sd value =
      ⟨SETTINGS_WR_PARSE_FAILED, sd.var, sd.var, false⟩ := by
  simp [setting_data_update_value, hro, hp]

theorem update_value_parse_fail_reverts_witness :
    setting_data_update_value ⟨false, false, [5], [9], fun _ _ => (false, [7]), some 0⟩ [55] =
      ⟨SETTINGS_WR_PARSE_FAILED, [5], [5], false⟩ :=
  update_value_parse_fail_reverts
    ⟨false, false, [5], [9], fun _ _ => (false, [7]), some 0⟩ [55] rfl rfl

/-- C10: for a destination of length `blen ≥ 1` and a source string of length
at least `blen`, `str_from_string` returns false but leaves the destination
holding the first `blen - 1` source bytes plus a terminating NUL rather than
its old contents; atomicity of the rejected write comes from the shadow-copy
revert in `setting_data_update_value`, which restores the storage and returns
PARSE_FAILED. -/
theorem str_from_string_overflow_truncates (blen : Nat) (blob str : List Nat)
    (h1 : 1 ≤ blen) (hlen : blob.length = blen) (hov : blen ≤ str.length) :
    str_from_string blen blob str = (false, str.take (blen - 1) ++ [0]) ∧
    ∀ (w : Bool) (cp : List Nat) (nf : Option Int),
      (setting_data_update_value (strSetting w blob cp nf) str).res =
        SETTINGS_WR_PARSE_FAILED ∧
      (setting_data_update_value (strSetting w blob cp nf) str).var = blob := by
  have hb : blen ≠ 0 := by omega
  have hw : min str.length (blen - 1) = blen - 1 := by omega
  have hlt : ¬ str.length < blen := by omega
  have hfs : str_from_string blen blob str = (false, str.take (blen - 1) ++ [0]) := by
    unfold str_from_string
    rw [if_neg hb]
    simp only [hw, hlt, decide_eq_true_eq, decide_eq_false_iff_not, not_false_eq_true]
    have : blob.drop (blen - 1 + 1) = [] := by
      apply List.drop_eq_nil_of_le
      omega
    simp [this, hlt]
  refine ⟨hfs, fun w cp nf => ?_⟩
  have : (strSetting w blob cp nf).from_string blob str = (false, str.take (blen - 1) ++ [0]) := by
    simp only [strSetting, hlen]
    exact hfs
  constructor <;> simp [setting_data_update_value, strSetting, hlen, hfs]

theorem str_from_string_overflow_truncates_witness :
    str_from_string 2 [65, 66] [97, 98, 99] = (false, [97, 0]) ∧
    (setting_data_update_value (strSetting false [65, 66] [0, 0] (some 0)) [97, 98, 99]).res =
      SETTINGS_WR_PARSE_FAILED ∧
    (setting_data_update_value (strSetting false [65, 66] [0, 0] (some 0)) [97, 98, 99]).var =
      [65, 66] := by
  have h := str_from_string_overflow_truncates 2 [65, 66] [97, 98, 99]
    (by decide) (by decide) (by decide)
  exact ⟨h.1, h.2 false [0, 0] (some 0)⟩

/-- C4 (code slip): a failing `settings_register_setting` on a previously
empty context does not restore the settings list: `setting_data_list_remove`
never removes the list head, so the created-but-unregistered entry stays
linked and the list differs from its pre-call (empty) state even though the
call returns -1. -/
theorem settings_add_setting_head_not_removed :
    settings_add_setting [] ⟨"sys", "rate"⟩ true false false = (-1, [⟨"sys", "rate"⟩]) ∧
    ([⟨"sys", "rate"⟩] : List SettingEntry) ≠ [] := by
  constructor
  · rfl
  · decide

/-- C6 counterexample: `int_from_string` with a 1-byte target accepts the text
"300" (value 300, outside -128..127, which the claim says must be rejected)
and stores the value truncated to 44. -/
theorem int_from_string_width1_out_of_range_accepted :
    decScan [51, 48, 48] = some 300 ∧
    (int_from_string 1 [0] [51, 48, 48]).1 = true ∧
    ¬(-128 ≤ (300 : Int) ∧ (300 : Int) ≤ 127) ∧
    int_from_string 1 [0] [51, 48, 48] = (true, [44]) := by
  refine ⟨by decide, by decide, by decide, by decide⟩

end Libsettings

namespace Libsettings

/-- C6 amended: `int_from_string` accepts a decimal text exactly when its
value lies in the range of the scanned C type — `short` for the 1- and 2-byte
widths, `int32` for the 4-byte width (conversion of an out-of-range value is
undefined in C and modelled as a failed scan); on acceptance it writes exactly
the target width, truncating the value to that width, so a 1-byte target
accepts -32768..32767 and stores the value modulo 256. -/
theorem int_from_string_scanned_range (str blob : List Nat) :
    (decScan str = none → ∀ w, int_from_string w blob str = (false, blob)) ∧
    (∀ v : Int, decScan str = some v →
      (((int_from_string 1 blob str).1 = true) ↔ (-32768 ≤ v ∧ v ≤ 32767)) ∧
      (((int_from_string 2 blob str).1 = true) ↔ (-32768 ≤ v ∧ v ≤ 32767)) ∧
      (((int_from_string 4 blob str).1 = true) ↔
        (-2147483648 ≤ v ∧ v ≤ 2147483647)) ∧
      (-32768 ≤ v → v ≤ 32767 →
        int_from_string 1 blob str = (true, encodeInt 1 v ++ blob.drop 1) ∧
        int_from_string 2 blob str = (true, encodeInt 2 v ++ blob.drop 2)) ∧
      (-2147483648 ≤ v → v ≤ 2147483647 →
        int_from_string 4 blob str = (true, encodeInt 4 v ++ blob.drop 4))) := by
  constructor
  · intro hnone w
    have hd : sscanf_hd str = none := by
      unfold sscanf_hd
      rw [hnone]
    have hd32 : sscanf_d32 str = none := by
      unfold sscanf_d32
      rw [hnone]
    unfold int_from_string
    rw [hd, hd32]
    split
    · rfl
    · split
      · rfl
      · split
        · rfl
        · rfl
  · intro v hv
    have hd : sscanf_hd str = if -32768 ≤ v ∧ v ≤ 32767 then some v else none := by
      unfold sscanf_hd
      rw [hv]
    have hd32 : sscanf_d32 str =
        if -2147483648 ≤ v ∧ v ≤ 2147483647 then some v else none := by
      unfold sscanf_d32
      rw [hv]
    refine ⟨?_, ?_, ?_, fun h1 h2 => ?_, fun h1 h2 => ?_⟩
    · by_cases hr : -32768 ≤ v ∧ v ≤ 32767 <;>
        simp [int_from_string, hd, hr]
    · by_cases hr : -32768 ≤ v ∧ v ≤ 32767 <;>
        simp [int_from_string, hd, hr]
    · by_cases hr : -2147483648 ≤ v ∧ v ≤ 2147483647 <;>
        simp [int_from_string, hd32, hr]
    · constructor <;> simp [int_from_string, hd, if_pos (And.intro h1 h2)]
    · simp [int_from_string, hd32, if_pos (And.intro h1 h2)]

theorem int_from_string_scanned_range_witness :
    decScan [52, 50] = some 42 ∧
    int_from_string 1 [9, 9] [52, 50] = (true, [42, 9]) := by
  refine ⟨by decide, ?_⟩
  have h := (((int_from_string_scanned_range [52, 50] [9, 9]).2 42 (by decide)).2.2.2.1
    (by decide) (by decide)).1
  simpa using h

/-- C5 counterexample: after a successful read transaction whose response type
token is `"enum:A,B"`, a caller expecting the registered enum type (id 4) gets
-1 from the decode tail of `settings_read` — the parsed type stays
SETTINGS_TYPE_STRING — even though the value text "A" parses under the enum
codec, where the claim promises the call proceeds with the caller's expected
type and returns 0. -/
theorem settings_read_enum_expected_type_rejected :
    (settings_read_decode registryWithEnumAB 4 1 [0] [65]
      [101, 110, 117, 109, 58, 65, 44, 66]).1 = -1 ∧
    (enum_from_string [[65], [66]] [0] [65]).1 = true ∧
    ((-1 : Int) ≠ 0) := by
  refine ⟨by rfl, by rfl, by decide⟩

/-- C5 amended: in the decode tail of `settings_read`, a type token starting
with `"enum:"` leaves the parsed type at SETTINGS_TYPE_STRING, so the call
proceeds — decoding with the STRING codec — only when the caller's expected
type is STRING (id 2), and returns -1 for any other expected type; a non-empty
type token not starting with `"enum:"` is read with `strtol` (saturating to
`long`) and narrowed to the `int`-typed `settings_type_t`, and that narrowed
value must equal the caller's expected type, otherwise the call returns -1;
on a match the call proceeds with the expected type's codec, returning 0 when
the value text parses. -/
theorem settings_read_type_gate (registry : List TypeData) (expected : Int)
    (value_len : Nat) (storage rv rt : List Nat) :
    (startsWithEnumTag rt = true → expected ≠ SETTINGS_TYPE_STRING →
      settings_read_decode registry expected value_len storage rv rt = (-1, storage)) ∧
    (startsWithEnumTag rt = true → expected = SETTINGS_TYPE_STRING →
      ∀ td st', type_data_lookup registry SETTINGS_TYPE_STRING = some td →
        td.from_string value_len storage rv = (true, st') →
        settings_read_decode registry expected value_len storage rv rt = (0, st')) ∧
    (startsWithEnumTag rt = false → rt ≠ [] → wrap32 (strtol10 rt) ≠ expected →
      settings_read_decode registry expected value_len storage rv rt = (-1, storage)) ∧
    (startsWithEnumTag rt = false → rt ≠ [] → wrap32 (strtol10 rt) = expected →
      ∀ td st', type_data_lookup registry expected = some td →
        td.from_string value_len storage rv = (true, st') →
        settings_read_decode registry expected value_len storage rv rt = (0, st')) := by
  have hlen : startsWithEnumTag rt = true → rt.length ≠ 0 := by
    intro h
    cases rt with
    | nil => simp [startsWithEnumTag, enumTagBytes] at h
    | cons a l => simp
  refine ⟨?_, ?_, ?_, ?_⟩
  · intro h hne
    have h0 : rt.length ≠ 0 := hlen h
    simp [settings_read_decode, h0, h, hne]
  · intro h he
    have h0 : rt.length ≠ 0 := hlen h
    intro td st' hl hf
    subst he
    simp [settings_read_decode, h0, h, hl, hf]
  · intro h hne hm
    have h0 : rt.length ≠ 0 := by
      intro hr
      exact hne (List.eq_nil_of_length_eq_zero hr)
    have : expected ≠ wrap32 (strtol10 rt) := fun he => hm he.symm
    simp [settings_read_decode, h0, h, this]
  · intro h hne hm td st' hl hf
    have h0 : rt.length ≠ 0 := by
      intro hr
      exact hne (List.eq_nil_of_length_eq_zero hr)
    subst hm
    simp [settings_read_decode, h0, h, hl, hf]

theorem settings_read_type_gate_witness :
    settings_read_decode registryWithEnumAB 2 1 [0] [65] [51] = (-1, [0]) ∧
    settings_read_decode registryWithEnumAB 2 2 [0, 0] [65]
      [52, 50, 57, 52, 57, 54, 55, 50, 57, 56] = (0, [65, 0]) := by
  constructor
  · exact (settings_read_type_gate registryWithEnumAB 2 1 [0] [65] [51]).2.2.1
      (by decide) (by decide) (by decide)
  · exact (settings_read_type_gate registryWithEnumAB 2 2 [0, 0] [65]
      [52, 50, 57, 52, 57, 54, 55, 50, 57, 56]).2.2.2
      (by decide) (by decide) (by decide) strTypeData [65, 0] rfl (by decide)

end Libsettings

namespace Libsettings

/-- A successful `List.find?` splits the list at the first satisfying
element. -/
theorem find?_first {α : Type} (p : α → Bool) :
    ∀ (l : List α) (a : α), l.find? p = some a →
      ∃ l1 l2, l = l1 ++ a :: l2 ∧ ∀ b ∈ l1, p b = false := by
  intro l
  induction l with
  | nil => intro a h; simp [List.find?] at h
  | cons x xs ih =>
    intro a h
    by_cases hx : p x
    · rw [List.find?_cons_of_pos _ hx] at h
      refine ⟨[], xs, ?_, by simp⟩
      simp [Option.some_inj.mp h]
    · rw [List.find?_cons_of_neg _ hx] at h
      obtain ⟨l1, l2, heq, hall⟩ := ih a h
      refine ⟨x :: l1, l2, by simp [heq], ?_⟩
      intro b hb
      rcases List.mem_cons.mp hb with hb | hb
      · subst hb; exact Bool.of_not_eq_true hx
      · exact hall b hb

/-- C3: `request_state_lookup` returns the first linked request whose compare
data matches the payload — `compare_data_len ≤ payload length` and byte-wise
prefix equality — and returns NULL exactly when no linked request matches;
`request_state_signal` with a mismatched message id returns -1 and leaves the
request untouched (still pending), while with the matching id it returns 0,
sets `match` and clears `pending`. -/
theorem request_lookup_signal_correct :
    (∀ (data : List Nat) (st : RequestState),
      requestMatches data st = true ↔
        st.compare_data.length ≤ data.length ∧
          data.take st.compare_data.length = st.compare_data) ∧
    (∀ (l : List RequestState) (data : List Nat) (st : RequestState),
      request_state_lookup l data = some st →
        requestMatches data st = true ∧
        ∃ l1 l2, l = l1 ++ st :: l2 ∧ ∀ st' ∈ l1, requestMatches data st' = false) ∧
    (∀ (l : List RequestState) (data : List Nat),
      request_state_lookup l data = none → ∀ st ∈ l, requestMatches data st = false) ∧
    (∀ (st : RequestState) (msg_id : Nat), msg_id ≠ st.msg_id →
      request_state_signal st msg_id = (-1, st)) ∧
    (∀ st : RequestState,
      (request_state_signal st st.msg_id).1 = 0 ∧
      (request_state_signal st st.msg_id).2.matched = true ∧
      (request_state_signal st st.msg_id).2.pending = false) := by
  refine ⟨?_, ?_, ?_, ?_, ?_⟩
  · intro data st
    simp [requestMatches]
  · intro l data st h
    exact ⟨List.find?_some h, find?_first _ l st h⟩
  · intro l data h st hst
    have := List.find?_eq_none.mp h st hst
    exact Bool.of_not_eq_true this
  · intro st msg_id h
    simp [request_state_signal, h]
  · intro st
    simp [request_state_signal]

theorem request_lookup_signal_correct_witness :
    request_state_signal ⟨5, [1, 2], false, true⟩ 6 = (-1, ⟨5, [1, 2], false, true⟩) ∧
    (request_state_signal ⟨5, [1, 2], false, true⟩ 5).2.pending = false ∧
    requestMatches [1, 2, 3] ⟨5, [1, 2], false, true⟩ = true :=
  ⟨request_lookup_signal_correct.2.2.2.1 ⟨5, [1, 2], false, true⟩ 6 (by decide),
   (request_lookup_signal_correct.2.2.2.2 ⟨5, [1, 2], false, true⟩).2.2,
   (request_lookup_signal_correct.1 [1, 2, 3] ⟨5, [1, 2], false, true⟩).mpr
     (by constructor <;> decide)⟩

/-- C7 counterexample: `settings_parse` on a zero-length buffer returns
INVALID (-1), not EMPTY (0), whatever the output-pointer configuration —
shown here with all four outputs requested. -/
theorem settings_parse_empty_invalid :
    (settings_parse true true true true []).code = SETTINGS_TOKENS_INVALID ∧
    SETTINGS_TOKENS_INVALID ≠ SETTINGS_TOKENS_EMPTY := by
  constructor
  · rfl
  · decide

/-- C7 amended: for every output-pointer configuration, `settings_parse` with
buffer length 0 returns INVALID (-1) with all outputs NULL. -/
theorem settings_parse_empty_returns_invalid (secReq nameReq valueReq typeReq : Bool) :
    settings_parse secReq nameReq valueReq typeReq [] =
      ⟨SETTINGS_TOKENS_INVALID, none, none, none, none⟩ := by
  rfl

end Libsettings

namespace Libsettings

theorem parseGo_nil (blen : Nat) (nR vR tR : Bool) (i tok : Nat) (n v t : Option Nat) :
    parseGo blen nR vR tR [] i tok n v t = (Int.ofNat tok, n, v, t) := rfl

theorem parseGo_cons_ne (blen : Nat) (nR vR tR : Bool) {b : Nat} (hb : b ≠ 0)
    (rest : List Nat) (i tok : Nat) (n v t : Option Nat) :
    parseGo blen nR vR tR (b :: rest) i tok n v t =
      parseGo blen nR vR tR rest (i + 1) tok n v t := by
  simp [parseGo, hb]

theorem parseGo_skip (blen : Nat) (nR vR tR : Bool) :
    ∀ (a : List Nat), 0 ∉ a → ∀ (rest : List Nat) (i tok : Nat) (n v t : Option Nat),
      parseGo blen nR vR tR (a ++ rest) i tok n v t =
        parseGo blen nR vR tR rest (i + a.length) tok n v t := by
  intro a
  induction a with
  | nil =>
    intro _ rest i tok n v t
    simp
  | cons x xs ih =>
    intro ha rest i tok n v t
    have hx : x ≠ 0 := by
      intro h
      exact ha (by simp [h])
    have hxs : (0 : Nat) ∉ xs := fun h => ha (List.mem_cons_of_mem _ h)
    rw [List.cons_append, parseGo_cons_ne blen nR vR tR hx, ih hxs]
    have h2 : i + 1 + xs.length = i + (x :: xs).length := by
      simp only [List.length_cons]
      omega
    rw [h2]

theorem parseGo_five (blen : Nat) (nR vR : Bool) (a b c d : List Nat)
    (ha : 0 ∉ a) (hb : 0 ∉ b) (hc : 0 ∉ c) (hd : 0 ∉ d)
    (i : Nat) (hblen : i + a.length + b.length + c.length + d.length + 5 = blen)
    (n v t : Option Nat) :
    (parseGo blen nR vR true (a ++ 0 :: (b ++ 0 :: (c ++ 0 :: (d ++ [0, 0]))))
      i 0 n v t).1 = 5 := by
  rw [parseGo_skip blen nR vR true a ha]
  simp only [parseGo]
  norm_num
  rw [parseGo_skip blen nR vR true b hb]
  simp only [parseGo]
  norm_num
  rw [parseGo_skip blen nR vR true c hc]
  simp only [parseGo]
  norm_num
  rw [if_pos (show i + a.length + 1 + b.length + 1 + c.length + 1 < blen by omega)]
  rw [parseGo_skip blen nR vR true d hd]
  simp only [parseGo]
  norm_num
  rw [if_pos (Or.inl (show i + a.length + 1 + b.length + 1 + c.length + 1 + d.length =
    blen - 2 by omega))]
  rw [if_pos (show i + a.length + 1 + b.length + 1 + c.length + 1 + d.length + 1 =
    blen - 1 by omega)]

end Libsettings

namespace Libsettings

theorem parseGo_six_zeros (blen : Nat) (nR vR tR : Bool) :
    ∀ (rest : List Nat) (i tok : Nat) (n v t : Option Nat), tok ≤ 5 →
      6 ≤ tok + rest.count 0 →
      (parseGo blen nR vR tR rest i tok n v t).1 = -1 := by
  intro rest
  induction rest with
  | nil =>
    intro i tok n v t h1 h2
    simp [List.count_nil] at h2
    omega
  | cons x xs ih =>
    intro i tok n v t h1 h2
    by_cases hx : x = 0
    · subst hx
      rw [List.count_cons_self] at h2
      simp only [parseGo]
      interval_cases tok <;> norm_num
      · exact ih (i + 1) 1 _ _ _ (by omega) (by omega)
      · exact ih (i + 1) 2 _ _ _ (by omega) (by omega)
      · split_ifs
        · exact ih (i + 1) 3 _ _ _ (by omega) (by omega)
        · exact ih (i + 1) 3 _ _ _ (by omega) (by omega)
        · rfl
      · split_ifs
        · exact ih (i + 1) 4 _ _ _ (by omega) (by omega)
        · rfl
      · split_ifs
        · exact ih (i + 1) 5 _ _ _ (by omega) (by omega)
        · rfl
    · rw [parseGo_cons_ne blen nR vR tR hx]
      refine ih (i + 1) tok n v t h1 ?_
      rw [List.count_cons_of_ne (by omega)] at h2
      exact h2

theorem getD_concat_length (x : Nat) :
    ∀ (l : List Nat), (l ++ [x]).getD l.length 0 = x := by
  intro l
  induction l with
  | nil => rfl
  | cons y ys ih =>
    simp only [List.cons_append, List.length_cons, List.getD_cons_succ]
    exact ih

end Libsettings

namespace Libsettings

/-- C8: a non-empty NUL-terminated buffer with exactly five NULs whose last
token is empty (two consecutive NULs at the end) parses as EXTRA_NULL
(TYPE_CUSTOM, 5) rather than INVALID when the type output slot is requested —
as at every call site in the source — and any NUL-terminated buffer with more
than five NULs parses as INVALID, for every output configuration. -/
theorem settings_parse_extra_null_limit :
    (∀ (a b c d : List Nat) (sR nR vR : Bool), 0 ∉ a → 0 ∉ b → 0 ∉ c → 0 ∉ d →
      (settings_parse sR nR vR true
        (a ++ 0 :: (b ++ 0 :: (c ++ 0 :: (d ++ [0, 0]))))).code =
        SETTINGS_TOKENS_TYPE_CUSTOM) ∧
    (∀ (buf : List Nat) (sR nR vR tR : Bool), buf ≠ [] →
      buf.getD (buf.length - 1) 0 = 0 → 5 < buf.count 0 →
      (settings_parse sR nR vR tR buf).code = SETTINGS_TOKENS_INVALID) := by
  constructor
  · intro a b c d sR nR vR ha hb hc hd
    have hlen : (a ++ 0 :: (b ++ 0 :: (c ++ 0 :: (d ++ [0, 0])))).length =
        a.length + b.length + c.length + d.length + 5 := by
      simp only [List.length_append, List.length_cons, List.length_nil]
      omega
    have hne : (a ++ 0 :: (b ++ 0 :: (c ++ 0 :: (d ++ [0, 0])))).length ≠ 0 := by
      rw [hlen]
      omega
    have hsplit : a ++ 0 :: (b ++ 0 :: (c ++ 0 :: (d ++ [0, 0]))) =
        (a ++ 0 :: (b ++ 0 :: (c ++ 0 :: (d ++ [0])))) ++ [0] := by
      simp
    have hlast : (a ++ 0 :: (b ++ 0 :: (c ++ 0 :: (d ++ [0, 0])))).getD
        ((a ++ 0 :: (b ++ 0 :: (c ++ 0 :: (d ++ [0, 0])))).length - 1) 0 = 0 := by
      rw [hsplit]
      have hl2 : ((a ++ 0 :: (b ++ 0 :: (c ++ 0 :: (d ++ [0])))) ++ [0]).length - 1 =
          (a ++ 0 :: (b ++ 0 :: (c ++ 0 :: (d ++ [0])))).length := by
        rw [List.length_append]
        rfl
      rw [hl2, getD_concat_length]
    unfold settings_parse
    rw [if_neg hne, if_neg (not_ne_iff.mpr hlast)]
    exact parseGo_five _ nR vR a b c d ha hb hc hd 0 (by omega) none none none
  · intro buf sR nR vR tR hne hlast hcount
    have h0 : buf.length ≠ 0 := by
      cases buf
      · exact absurd rfl hne
      · simp
    unfold settings_parse
    rw [if_neg h0, if_neg (not_ne_iff.mpr hlast)]
    exact parseGo_six_zeros buf.length nR vR tR buf 0 0 none none none
      (by omega) (by omega)

theorem settings_parse_extra_null_limit_witness :
    (settings_parse true true true true [97, 0, 98, 0, 99, 0, 100, 0, 0]).code =
      SETTINGS_TOKENS_TYPE_CUSTOM ∧
    (settings_parse true true true true [0, 0, 0, 0, 0, 0]).code =
      SETTINGS_TOKENS_INVALID := by
  constructor
  · exact (settings_parse_extra_null_limit).1 [97] [98] [99] [100] true true true
      (by decide) (by decide) (by decide) (by decide)
  · exact (settings_parse_extra_null_limit).2 [0, 0, 0, 0, 0, 0] true true true true
      (by decide) (by decide) (by decide)

end Libsettings


namespace Libsettings

theorem formatGo_fits (blen : Nat) :
    ∀ (ts : List (List Nat)) (n : Nat) (acc : List Nat), n + sumLen ts ≤ blen →
      formatGo blen ts n acc = some (n + sumLen ts, acc ++ flattenTokens ts) := by
  intro ts
  induction ts with
  | nil =>
    intro n acc h
    simp [formatGo, sumLen, flattenTokens]
  | cons t ts ih =>
    intro n acc h
    rw [sumLen] at h ⊢
    unfold formatGo
    rw [if_neg (by omega)]
    rw [ih (n + t.length + 1) (acc ++ t ++ [0]) (by omega)]
    rw [flattenTokens]
    have harith : n + t.length + 1 + sumLen ts = n + (t.length + 1 + sumLen ts) := by
      omega
    rw [harith]
    simp [List.append_assoc]

theorem formatGo_overflow (blen : Nat) :
    ∀ (ts : List (List Nat)) (tk : List Nat) (n : Nat) (acc : List Nat),
      blen < n + sumLen (tk :: ts) → formatGo blen (tk :: ts) n acc = none := by
  intro ts
  induction ts with
  | nil =>
    intro tk n acc h
    rw [sumLen, sumLen] at h
    unfold formatGo
    rw [if_pos (by omega)]
  | cons t2 ts ih =>
    intro tk n acc h
    rw [sumLen] at h
    unfold formatGo
    by_cases hc : blen - n ≤ tk.length
    · rw [if_pos hc]
    · rw [if_neg hc]
      exact ih t2 (n + tk.length + 1) (acc ++ tk ++ [0]) (by omega)

theorem tokenAt_start :
    ∀ (x : List Nat), 0 ∉ x → ∀ (rest : List Nat), tokenAt (x ++ 0 :: rest) 0 = x := by
  intro x
  induction x with
  | nil =>
    intro _ rest
    simp [tokenAt]
  | cons y ys ih =>
    intro hx rest
    have hy : y ≠ 0 := fun h => hx (by simp [h])
    have hys : (0 : Nat) ∉ ys := fun h => hx (List.mem_cons_of_mem _ h)
    have hih := ih hys rest
    simp only [tokenAt, List.drop_zero] at hih ⊢
    simp only [List.cons_append, List.takeWhile_cons]
    simp [hy]
    simp only [ne_eq, decide_not] at hih
    exact hih

theorem drop_append_cons (j : Nat) :
    ∀ (x rest : List Nat), (x ++ 0 :: rest).drop (x.length + 1 + j) = rest.drop j := by
  intro x
  induction x with
  | nil =>
    intro rest
    have h : ([] : List Nat).length + 1 + j = j + 1 := by
      simp only [List.length_nil]
      omega
    rw [h, List.nil_append, List.drop_succ_cons]
  | cons y ys ih =>
    intro rest
    have h : (y :: ys).length + 1 + j = (ys.length + 1 + j) + 1 := by
      simp only [List.length_cons]
      omega
    rw [h, List.cons_append, List.drop_succ_cons]
    exact ih rest

theorem tokenAt_after (x rest : List Nat) (j : Nat) :
    tokenAt (x ++ 0 :: rest) (x.length + 1 + j) = tokenAt rest j := by
  unfold tokenAt
  rw [drop_append_cons]

end Libsettings

namespace Libsettings

theorem parse_flat_one (x : List Nat) (hx : 0 ∉ x) :
    settings_parse true true true true (x ++ 0 :: []) =
      ⟨1, some 0, none, none, none⟩ := by
  have hlen : (x ++ 0 :: []).length = x.length + 1 := by simp
  have hlast : (x ++ 0 :: []).getD ((x ++ 0 :: []).length - 1) 0 = 0 := by
    have h1 : (x ++ 0 :: []).length - 1 = x.length := by
      rw [hlen]
      omega
    rw [h1]
    exact getD_concat_length 0 x
  unfold settings_parse
  rw [if_neg (by rw [hlen]; omega), if_neg (not_ne_iff.mpr hlast)]
  rw [parseGo_skip _ true true true x hx]
  simp only [parseGo]
  norm_num

theorem parse_flat_two (x y : List Nat) (hx : 0 ∉ x) (hy : 0 ∉ y) :
    settings_parse true true true true (x ++ 0 :: (y ++ 0 :: [])) =
      ⟨2, some 0, some (x.length + 1), none, none⟩ := by
  have hlen : (x ++ 0 :: (y ++ 0 :: [])).length = x.length + y.length + 2 := by
    simp only [List.length_append, List.length_cons, List.length_nil]
    omega
  have hsplit : x ++ 0 :: (y ++ 0 :: []) = (x ++ 0 :: y) ++ [0] := by
    simp
  have hlast : (x ++ 0 :: (y ++ 0 :: [])).getD ((x ++ 0 :: (y ++ 0 :: [])).length - 1) 0
      = 0 := by
    rw [hsplit]
    have h1 : ((x ++ 0 :: y) ++ [0]).length - 1 = (x ++ 0 :: y).length := by
      rw [List.length_append]
      rfl
    rw [h1]
    exact getD_concat_length 0 (x ++ 0 :: y)
  unfold settings_parse
  rw [if_neg (by rw [hlen]; omega), if_neg (not_ne_iff.mpr hlast)]
  rw [parseGo_skip _ true true true x hx]
  simp only [parseGo]
  norm_num
  rw [parseGo_skip _ true true true y hy]
  simp only [parseGo]
  norm_num
  intro h
  exact absurd h (by omega)

end Libsettings

namespace Libsettings

theorem parse_flat_three (x y z : List Nat) (hx : 0 ∉ x) (hy : 0 ∉ y) (hz : 0 ∉ z) :
    settings_parse true true true true (x ++ 0 :: (y ++ 0 :: (z ++ 0 :: []))) =
      ⟨3, some 0, some (x.length + 1), some (x.length + 1 + y.length + 1), none⟩ := by
  have hlen : (x ++ 0 :: (y ++ 0 :: (z ++ 0 :: []))).length =
      x.length + y.length + z.length + 3 := by
    simp only [List.length_append, List.length_cons, List.length_nil]
    omega
  have hsplit : x ++ 0 :: (y ++ 0 :: (z ++ 0 :: [])) =
      (x ++ 0 :: (y ++ 0 :: z)) ++ [0] := by
    simp
  have hlast : (x ++ 0 :: (y ++ 0 :: (z ++ 0 :: []))).getD
      ((x ++ 0 :: (y ++ 0 :: (z ++ 0 :: []))).length - 1) 0 = 0 := by
    rw [hsplit]
    have h1 : ((x ++ 0 :: (y ++ 0 :: z)) ++ [0]).length - 1 =
        (x ++ 0 :: (y ++ 0 :: z)).length := by
      rw [List.length_append]
      rfl
    rw [h1]
    exact getD_concat_length 0 (x ++ 0 :: (y ++ 0 :: z))
  unfold settings_parse
  rw [if_neg (by rw [hlen]; omega), if_neg (not_ne_iff.mpr hlast)]
  rw [parseGo_skip _ true true true x hx]
  simp only [parseGo]
  norm_num
  rw [parseGo_skip _ true true true y hy]
  simp only [parseGo]
  norm_num
  rw [parseGo_skip _ true true true z hz]
  simp only [parseGo]
  norm_num
  rw [if_pos (show x.length + 1 + y.length + 1 <
    x.length + (y.length + (z.length + 1 + 1) + 1) by omega)]
  rw [if_neg (show ¬(x.length + 1 + y.length + 1 + z.length + 1 <
    x.length + (y.length + (z.length + 1 + 1) + 1)) by omega)]
  rw [if_pos (Or.inr (show x.length + 1 + y.length + 1 + z.length =
    x.length + (y.length + (z.length + 1 + 1)) by omega))]
  norm_num

end Libsettings

namespace Libsettings

theorem parse_flat_four (w x y z : List Nat)
    (hw : 0 ∉ w) (hx : 0 ∉ x) (hy : 0 ∉ y) (hz : 0 ∉ z) :
    settings_parse true true true true
      (w ++ 0 :: (x ++ 0 :: (y ++ 0 :: (z ++ 0 :: [])))) =
      ⟨4, some 0, some (w.length + 1), some (w.length + 1 + x.length + 1),
        some (w.length + 1 + x.length + 1 + y.length + 1)⟩ := by
  have hlen : (w ++ 0 :: (x ++ 0 :: (y ++ 0 :: (z ++ 0 :: [])))).length =
      w.length + x.length + y.length + z.length + 4 := by
    simp only [List.length_append, List.length_cons, List.length_nil]
    omega
  have hsplit : w ++ 0 :: (x ++ 0 :: (y ++ 0 :: (z ++ 0 :: []))) =
      (w ++ 0 :: (x ++ 0 :: (y ++ 0 :: z))) ++ [0] := by
    simp
  have hlast : (w ++ 0 :: (x ++ 0 :: (y ++ 0 :: (z ++ 0 :: [])))).getD
      ((w ++ 0 :: (x ++ 0 :: (y ++ 0 :: (z ++ 0 :: [])))).length - 1) 0 = 0 := by
    rw [hsplit]
    have h1 : ((w ++ 0 :: (x ++ 0 :: (y ++ 0 :: z))) ++ [0]).length - 1 =
        (w ++ 0 :: (x ++ 0 :: (y ++ 0 :: z))).length := by
      rw [List.length_append]
      rfl
    rw [h1]
    exact getD_concat_length 0 (w ++ 0 :: (x ++ 0 :: (y ++ 0 :: z)))
  unfold settings_parse
  rw [if_neg (by rw [hlen]; omega), if_neg (not_ne_iff.mpr hlast)]
  rw [parseGo_skip _ true true true w hw]
  simp only [parseGo]
  norm_num
  rw [parseGo_skip _ true true true x hx]
  simp only [parseGo]
  norm_num
  rw [parseGo_skip _ true true true y hy]
  simp only [parseGo]
  norm_num
  rw [if_pos (show w.length + 1 + x.length + 1 + y.length + 1 <
    w.length + (x.length + (y.length + (z.length + 1 + 1) + 1) + 1) by omega)]
  rw [if_pos (show w.length + 1 + x.length + 1 <
    w.length + (x.length + (y.length + (z.length + 1 + 1) + 1) + 1) by omega)]
  rw [parseGo_skip _ true true true z hz]
  simp only [parseGo]
  norm_num
  rw [if_pos (Or.inr (show w.length + 1 + x.length + 1 + y.length + 1 + z.length =
    w.length + (x.length + (y.length + (z.length + 1 + 1) + 1)) by omega))]
  exact ⟨rfl, rfl, rfl, rfl⟩

end Libsettings

namespace Libsettings

theorem tokenAt_next (x rest : List Nat) :
    tokenAt (x ++ 0 :: rest) (x.length + 1) = tokenAt rest 0 := by
  have h := tokenAt_after x rest 0
  simpa using h

/-- C9: for up to four NUL-free tokens and a buffer large enough for every
token plus its NUL, `settings_format` writes the tokens each followed by a NUL
and returns the total byte count, and `settings_parse` on the produced bytes
returns the token count and yields back exactly the same tokens in order; if
the tokens do not fit, `settings_format` returns -1. -/
theorem settings_format_parse_roundtrip (ts : List (List Nat)) (blen : Nat)
    (hts : ts.length ≤ 4) (hfree : ∀ t ∈ ts, 0 ∉ t) :
    (sumLen ts ≤ blen →
      settings_format ts[0]? ts[1]? ts[2]? ts[3]? blen =
        some (sumLen ts, flattenTokens ts) ∧
      parsedTokens (flattenTokens ts)
        (settings_parse true true true true (flattenTokens ts)) = ts ∧
      (1 ≤ ts.length →
        (settings_parse true true true true (flattenTokens ts)).code =
          Int.ofNat ts.length)) ∧
    (blen < sumLen ts →
      settings_format ts[0]? ts[1]? ts[2]? ts[3]? blen = none) := by
  rcases ts with _ | ⟨x, _ | ⟨y, _ | ⟨z, _ | ⟨u, _ | ⟨v, rest⟩⟩⟩⟩⟩
  · refine ⟨fun hfit => ⟨rfl, rfl, fun h1 => absurd h1 (by simp)⟩, fun hov => ?_⟩
    exact absurd hov (by simp [sumLen])
  · have hx : 0 ∉ x := hfree x (by simp)
    have hfl : flattenTokens [x] = x ++ 0 :: [] := by
      simp [flattenTokens]
    refine ⟨fun hfit => ⟨?_, ?_, fun _ => ?_⟩, fun hov => ?_⟩
    · have h := formatGo_fits blen [x] 0 [] (by omega)
      simpa [settings_format, argTokens] using h
    · rw [hfl, parse_flat_one x hx]
      simp [parsedTokens, argTokens, tokenAt_start x hx []]
    · rw [hfl, parse_flat_one x hx]
      rfl
    · have h := formatGo_overflow blen [] x 0 []
        (by simp only [sumLen] at hov ⊢; omega)
      simpa [settings_format, argTokens] using h
  · have hx : 0 ∉ x := hfree x (by simp)
    have hy : 0 ∉ y := hfree y (by simp)
    have hfl : flattenTokens [x, y] = x ++ 0 :: (y ++ 0 :: []) := by
      simp [flattenTokens]
    refine ⟨fun hfit => ⟨?_, ?_, fun _ => ?_⟩, fun hov => ?_⟩
    · have h := formatGo_fits blen [x, y] 0 [] (by omega)
      simpa [settings_format, argTokens] using h
    · rw [hfl, parse_flat_two x y hx hy]
      simp only [parsedTokens, List.map, Option.map_some, Option.map_none, argTokens]
      rw [tokenAt_start x hx, tokenAt_next, tokenAt_start y hy []]
    · rw [hfl, parse_flat_two x y hx hy]
      rfl
    · have h := formatGo_overflow blen [y] x 0 [] (by omega)
      simpa [settings_format, argTokens] using h
  · have hx : 0 ∉ x := hfree x (by simp)
    have hy : 0 ∉ y := hfree y (by simp)
    have hz : 0 ∉ z := hfree z (by simp)
    have hfl : flattenTokens [x, y, z] = x ++ 0 :: (y ++ 0 :: (z ++ 0 :: [])) := by
      simp [flattenTokens]
    refine ⟨fun hfit => ⟨?_, ?_, fun _ => ?_⟩, fun hov => ?_⟩
    · have h := formatGo_fits blen [x, y, z] 0 [] (by omega)
      simpa [settings_format, argTokens] using h
    · rw [hfl, parse_flat_three x y z hx hy hz]
      simp only [parsedTokens, List.map, Option.map_some, Option.map_none, argTokens]
      have h3 : x.length + 1 + y.length + 1 = x.length + 1 + (y.length + 1) := by
        omega
      rw [tokenAt_start x hx, tokenAt_next, tokenAt_start y hy, h3, tokenAt_after,
        tokenAt_next, tokenAt_start z hz []]
    · rw [hfl, parse_flat_three x y z hx hy hz]
      rfl
    · have h := formatGo_overflow blen [y, z] x 0 [] (by omega)
      simpa [settings_format, argTokens] using h
  · have hx : 0 ∉ x := hfree x (by simp)
    have hy : 0 ∉ y := hfree y (by simp)
    have hz : 0 ∉ z := hfree z (by simp)
    have hu : 0 ∉ u := hfree u (by simp)
    have hfl : flattenTokens [x, y, z, u] =
        x ++ 0 :: (y ++ 0 :: (z ++ 0 :: (u ++ 0 :: []))) := by
      simp [flattenTokens]
    refine ⟨fun hfit => ⟨?_, ?_, fun _ => ?_⟩, fun hov => ?_⟩
    · have h := formatGo_fits blen [x, y, z, u] 0 [] (by omega)
      simpa [settings_format, argTokens] using h
    · rw [hfl, parse_flat_four x y z u hx hy hz hu]
      simp only [parsedTokens, List.map, Option.map_some, Option.map_none, argTokens]
      have h3 : x.length + 1 + y.length + 1 = x.length + 1 + (y.length + 1) := by
        omega
      have h4 : x.length + 1 + (y.length + 1) + z.length + 1 =
          x.length + 1 + (y.length + 1 + (z.length + 1)) := by
        omega
      rw [tokenAt_start x hx, tokenAt_next, tokenAt_start y hy, h3, tokenAt_after,
        tokenAt_next, tokenAt_start z hz, h4, tokenAt_after, tokenAt_after,
        tokenAt_next, tokenAt_start u hu []]
    · rw [hfl, parse_flat_four x y z u hx hy hz hu]
      rfl
    · have h := formatGo_overflow blen [y, z, u] x 0 [] (by omega)
      simpa [settings_format, argTokens] using h
  · exfalso
    simp only [List.length_cons] at hts
    omega

end Libsettings

namespace Libsettings

theorem settings_format_parse_roundtrip_witness :
    settings_format (some [97]) (some [98]) none none 6 = some (4, [97, 0, 98, 0]) ∧
    parsedTokens [97, 0, 98, 0] (settings_parse true true true true [97, 0, 98, 0]) =
      [[97], [98]] ∧
    settings_format (some [97, 98, 99]) none none none 3 = none := by
  have h1 := (settings_format_parse_roundtrip [[97], [98]] 6 (by decide)
    (by decide)).1 (by decide)
  have h2 := (settings_format_parse_roundtrip [[97, 98, 99]] 3 (by decide)
    (by decide)).2 (by decide)
  exact ⟨by simpa using h1.1, by simpa using h1.2.1, by simpa using h2⟩

end Libsettings
